import Mathlib

/-!
Verification of the BlueFusion packet-plane and connection-plane core.

This file shallowly embeds the parts of the repository that the checked
properties are about:

* `src/src/interfaces/auto_connect_manager.py` — the Auto-Connect Manager
  (configuration, metrics, retry policy, `should_retry`, device
  enable/disable/pause, external BLE event handling, status queries).
  Python floats (delays, times) are modelled as rationals; `datetime.now()`
  is modelled by passing an explicit `now` parameter; the async machinery is
  out of scope of the claims and is not modelled.

* The BLE crypto utilities (`src/utils/ble_crypto.py`), the packet inspector
  (`src/analyzers/packet_inspector.py`) and the hex pattern matcher
  (`src/analyzers/hex_pattern_matcher.py`) are not present under `src/` of
  this snapshot — only their tests are.  Those parts are modelled from the
  specification, with behavior at the concrete inputs pinned by the
  repository's tests; each such definition carries a doc comment starting
  with `Modelled from the spec:`.

Bytes are modelled as `Nat` values (< 256 where produced by the code);
byte strings as `List Nat`.
-/

namespace BlueFusion

/-- `ConnectionState` enum of `auto_connect_manager.py`. -/
inductive ConnectionState where
  | disconnected
  | connecting
  | connected
  | reconnecting
  | failed
  | paused
deriving DecidableEq, Repr

/-- `RetryStrategy` enum of `auto_connect_manager.py`. -/
inductive RetryStrategy where
  | exponential_backoff
  | fixed_interval
  | linear_backoff
deriving DecidableEq, Repr

/-- `ConnectionConfig` dataclass of `auto_connect_manager.py`.
Float-valued durations are modelled as rationals. -/
structure ConnectionConfig where
  max_retries : Nat := 5
  initial_retry_delay : ℚ := 1
  max_retry_delay : ℚ := 60
  retry_strategy : RetryStrategy := .exponential_backoff
  connection_timeout : ℚ := 30
  stability_check_interval : ℚ := 10
  reconnect_on_failure : Bool := true
  health_check_interval : ℚ := 30
  max_consecutive_failures : Nat := 3
deriving DecidableEq, Repr

/-- `ConnectionMetrics` model of `auto_connect_manager.py`.
`datetime` values are modelled as rational timestamps. -/
structure ConnectionMetrics where
  total_attempts : Nat := 0
  successful_connections : Nat := 0
  failed_connections : Nat := 0
  last_connected : Option ℚ := none
  last_failure : Option ℚ := none
  average_connection_time : ℚ := 0
  connection_uptime : ℚ := 0
  stability_score : ℚ := 0
  consecutive_failures : Nat := 0
deriving DecidableEq, Repr

/-- `ManagedConnection.__init__`: the per-device state of
`auto_connect_manager.py`. -/
structure ManagedConnection where
  address : String
  config : ConnectionConfig
  state : ConnectionState := .disconnected
  metrics : ConnectionMetrics := {}
  retry_count : Nat := 0
  connection_start_time : Option ℚ := none
  last_activity : Option ℚ := none
  is_enabled : Bool := true
  pause_until : Option ℚ := none
deriving DecidableEq, Repr

/-- `ManagedConnection.calculate_retry_delay` of `auto_connect_manager.py`:
strategy-dependent delay, capped by `max_retry_delay`. -/
def calculate_retry_delay (c : ManagedConnection) : ℚ :=
  let delay : ℚ :=
    match c.config.retry_strategy with
    | .exponential_backoff => c.config.initial_retry_delay * (2 ^ c.retry_count)
    | .linear_backoff => c.config.initial_retry_delay * (1 + c.retry_count)
    | .fixed_interval => c.config.initial_retry_delay
  min delay c.config.max_retry_delay

/-- `ManagedConnection.update_metrics` of `auto_connect_manager.py`.
`connection_time` is the optional float argument (Python default `None`);
the `if connection_time:` truthiness test is false for both `None` and
`0.0`.  `now` stands for `datetime.now()`. -/
def update_metrics (m : ConnectionMetrics) (success : Bool)
    (connection_time : Option ℚ) (now : ℚ) : ConnectionMetrics :=
  let m1 := { m with total_attempts := m.total_attempts + 1 }
  let m2 :=
    if success then
      let m2a := { m1 with
        successful_connections := m1.successful_connections + 1,
        last_connected := some now,
        consecutive_failures := 0 }
      match connection_time with
      | some ct =>
          if ct = 0 then m2a
          else
            let total_time :=
              m2a.average_connection_time * (m2a.successful_connections - 1 : ℕ)
            { m2a with average_connection_time :=
                (total_time + ct) / m2a.successful_connections }
      | none => m2a
    else
      { m1 with
        failed_connections := m1.failed_connections + 1,
        last_failure := some now,
        consecutive_failures := m1.consecutive_failures + 1 }
  { m2 with stability_score :=
      (m2.successful_connections : ℚ) / (m2.total_attempts : ℚ) }

/-- `ManagedConnection.update_metrics` lifted to the whole connection
(the method mutates `self.metrics`). -/
def conn_update_metrics (c : ManagedConnection) (success : Bool)
    (connection_time : Option ℚ) (now : ℚ) : ManagedConnection :=
  { c with metrics := update_metrics c.metrics success connection_time now }

/-- The test `self.pause_until and datetime.now() < self.pause_until` of
`should_retry`: a non-`None` `pause_until` is always truthy in Python. -/
def pause_blocks (c : ManagedConnection) (now : ℚ) : Bool :=
  match c.pause_until with
  | some t => decide (now < t)
  | none => false

/-- `ManagedConnection.should_retry` of `auto_connect_manager.py`:
the chain of early returns. -/
def should_retry (c : ManagedConnection) (now : ℚ) : Bool :=
  if ¬ c.is_enabled then false
  else if pause_blocks c now then false
  else if c.config.max_retries ≤ c.retry_count then false
  else if c.config.max_consecutive_failures ≤ c.metrics.consecutive_failures then false
  else true

/-- `ManagedConnection.pause` of `auto_connect_manager.py`:
`pause_until := now + duration`, `state := PAUSED`. -/
def conn_pause (c : ManagedConnection) (duration : ℚ) (now : ℚ) : ManagedConnection :=
  { c with pause_until := some (now + duration), state := .paused }

/-- The manager state of `AutoConnectManager` (`auto_connect_manager.py`):
`managed_connections` is the address-keyed dict (association list with
unique keys), `connection_tasks` the set of addresses with a live asyncio
task (the task objects themselves are not modelled). -/
structure AutoConnectManager where
  default_config : ConnectionConfig := {}
  managed_connections : List (String × ManagedConnection) := []
  connection_tasks : List String := []
deriving DecidableEq, Repr

/-- Events emitted through `_emit_event`: `(address, event_type)` pairs.
The `data` dict payload carries no information the claims are about and is
not modelled. -/
abbrev EmittedEvent := String × String

/-- Association-list lookup with Python dict semantics (keys unique). -/
def lookup_addr (address : String) :
    List (String × ManagedConnection) → Option ManagedConnection
  | [] => none
  | (k, v) :: tl => if k = address then some v else lookup_addr address tl

/-- Dict lookup `self.managed_connections[address]` /
`address in self.managed_connections`. -/
def find_conn (m : AutoConnectManager) (address : String) : Option ManagedConnection :=
  lookup_addr address m.managed_connections

/-- Dict assignment `self.managed_connections[address] = c` for a present
key: replace the entry in place. -/
def set_conn (m : AutoConnectManager) (address : String) (c : ManagedConnection) :
    AutoConnectManager :=
  { m with managed_connections :=
      m.managed_connections.map (fun p => if p.1 = address then (address, c) else p) }

/-- `AutoConnectManager.enable_device`: sets `is_enabled := True` and emits
`device_enabled` when the address is managed; otherwise does nothing. -/
def enable_device (m : AutoConnectManager) (address : String) :
    AutoConnectManager × List EmittedEvent :=
  match find_conn m address with
  | some c => (set_conn m address { c with is_enabled := true }, [(address, "device_enabled")])
  | none => (m, [])

/-- `AutoConnectManager.disable_device`: sets `is_enabled := False`, cancels
and removes any connection task, and emits `device_disabled` when the
address is managed; otherwise does nothing. -/
def disable_device (m : AutoConnectManager) (address : String) :
    AutoConnectManager × List EmittedEvent :=
  match find_conn m address with
  | some c =>
      let m1 := set_conn m address { c with is_enabled := false }
      ({ m1 with connection_tasks := m1.connection_tasks.erase address },
       [(address, "device_disabled")])
  | none => (m, [])

/-- `AutoConnectManager.pause_device`: calls `ManagedConnection.pause` and
emits `device_paused` when the address is managed; otherwise does nothing. -/
def pause_device (m : AutoConnectManager) (address : String) (duration : ℚ) (now : ℚ) :
    AutoConnectManager × List EmittedEvent :=
  match find_conn m address with
  | some c => (set_conn m address (conn_pause c duration now), [(address, "device_paused")])
  | none => (m, [])

/-- The status dict returned by `AutoConnectManager.get_connection_status`. -/
structure ConnectionStatus where
  address : String
  state : ConnectionState
  metrics : ConnectionMetrics
  retry_count : Nat
  enabled : Bool
  paused_until : Option ℚ
deriving DecidableEq, Repr

/-- `AutoConnectManager.get_connection_status`: the status dict for a
managed address, `None` otherwise. -/
def get_connection_status (m : AutoConnectManager) (address : String) :
    Option ConnectionStatus :=
  (find_conn m address).map fun c =>
    { address := address, state := c.state, metrics := c.metrics,
      retry_count := c.retry_count, enabled := c.is_enabled,
      paused_until := c.pause_until }

/-- The `(address, packet_type)` part of a `BLEPacket` as consumed by
`AutoConnectManager._on_ble_event` (the other packet fields are unused
there). -/
structure BLEEventPacket where
  address : String
  packet_type : String
deriving DecidableEq, Repr

/-- `AutoConnectManager._on_ble_event`: for a managed address, update
`last_activity`; on a `"connection"` packet set the state to CONNECTED and
reset `retry_count`; on a `"disconnection"` packet, when
`reconnect_on_failure`, go to DISCONNECTED with `retry_count := 0` and
restart the per-device task if absent and the device is enabled. -/
def on_ble_event (m : AutoConnectManager) (pkt : BLEEventPacket) (now : ℚ) :
    AutoConnectManager :=
  match find_conn m pkt.address with
  | none => m
  | some c =>
      let c1 := { c with last_activity := some now }
      if pkt.packet_type = "connection" then
        set_conn m pkt.address { c1 with state := .connected, retry_count := 0 }
      else if pkt.packet_type = "disconnection" then
        if c1.config.reconnect_on_failure then
          let c2 := { c1 with state := .disconnected, retry_count := 0 }
          let m2 := set_conn m pkt.address c2
          if !m2.connection_tasks.contains pkt.address && c2.is_enabled then
            { m2 with connection_tasks := m2.connection_tasks ++ [pkt.address] }
          else m2
        else set_conn m pkt.address c1
      else set_conn m pkt.address c1

/-- Modelled from the spec: the `BLEDecryptionError` exception of
`src/utils/ble_crypto.py` (file absent from this snapshot), carrying its
message; the spec's `CryptoInput` error kind. -/
structure BLEDecryptionError where
  msg : String
deriving DecidableEq, Repr

/-- The 5-byte little-endian encoding of a packet counter
(`struct.pack`-style, least significant byte first). -/
def counter_le5 (c : Nat) : List Nat :=
  [c % 256, c / 256 % 256, c / 256 ^ 2 % 256, c / 256 ^ 3 % 256, c / 256 ^ 4 % 256]

/-- Modelled from the spec: `BLEAESCCMDecryptor.construct_ble_nonce` of
`src/utils/ble_crypto.py` (file absent from this snapshot; its tests pin
the error messages and the direction bit).  `nonce = IV[8] ∥ counter_le[5]`
with the high bit of the last byte set for master→slave and cleared for
slave→master; an IV that is not 8 bytes or a counter of 2^39 or more is a
`CryptoInput` failure. -/
def construct_ble_nonce (iv : List Nat) (packet_counter : Nat)
    (is_master_to_slave : Bool) : Except BLEDecryptionError (List Nat) :=
  if iv.length ≠ 8 then .error ⟨"IV must be 8 bytes"⟩
  else if 2 ^ 39 ≤ packet_counter then .error ⟨"Packet counter too large"⟩
  else
    let cb := counter_le5 packet_counter
    let last := if is_master_to_slave then cb.getD 4 0 ||| 0x80 else cb.getD 4 0 &&& 0x7f
    .ok (iv ++ (cb.take 4 ++ [last]))

/-- The spec-side description of the nonce tail: the 5-byte little-endian
encoding of `c` whose last byte carries the direction flag in its high
bit. -/
def le5_with_dir (c : Nat) (is_master_to_slave : Bool) : List Nat :=
  [c % 256, c / 2 ^ 8 % 256, c / 2 ^ 16 % 256, c / 2 ^ 24 % 256,
   c / 2 ^ 32 % 128 + (if is_master_to_slave then 128 else 0)]

/-- The per-index XOR mask of `BLEXORDecryptor.decrypt`: the repeating key
byte, XORed with the low byte of the running counter when
`use_packet_counter` is requested. -/
def xor_keystream (key : List Nat) (counter_start : Nat)
    (use_packet_counter : Bool) (i : Nat) : Nat :=
  let kb := key.getD (i % key.length) 0
  if use_packet_counter then kb ^^^ ((counter_start + i) % 256) else kb

/-- XOR a byte sequence against a per-index mask, starting at index `i`. -/
def xor_apply (f : Nat → Nat) : Nat → List Nat → List Nat
  | _, [] => []
  | i, b :: bs => (b ^^^ f i) :: xor_apply f (i + 1) bs

/-- Modelled from the spec: `BLEXORDecryptor.decrypt` of
`src/utils/ble_crypto.py` (file absent from this snapshot).  Pure
repeating-key XOR, or the counter mask when `use_packet_counter`; the
empty-key and empty-ciphertext guards and their messages are pinned by
`tests/test_ble_crypto_xor.py`. -/
def xor_decrypt (key ciphertext : List Nat) (counter_start : Nat := 0)
    (use_packet_counter : Bool := false) : Except BLEDecryptionError (List Nat) :=
  if key = [] then .error ⟨"XOR key cannot be empty"⟩
  else if ciphertext = [] then .error ⟨"Ciphertext cannot be empty"⟩
  else .ok (xor_apply (xor_keystream key counter_start use_packet_counter) 0 ciphertext)

/-- Repeating-key XOR encryption, as performed byte by byte by the tests in
`tests/test_ble_crypto_xor.py` (the repository has no encrypt function;
this is the spec's encryption side of the round-trip). -/
def xor_encrypt (key plaintext : List Nat) : List Nat :=
  xor_apply (xor_keystream key 0 false) 0 plaintext

/-- The tag lengths `AESCCM` accepts: the spec's set {4,6,8,10,12,14,16}. -/
def valid_tag_lengths : List Nat := [4, 6, 8, 10, 12, 14, 16]

/-- An AEAD primitive: the contract of the external `cryptography`
library's `AESCCM` as the spec relies on it — decrypting a sealed message
with the same key, nonce, associated data and tag length recovers the
plaintext, and decryption returns `none` on authentication failure. -/
structure AEAD where
  encrypt : List Nat → List Nat → List Nat → Nat → List Nat → List Nat
  decrypt : List Nat → List Nat → List Nat → Nat → List Nat → Option (List Nat)
  decrypt_encrypt : ∀ key nonce aad tag_length pt,
    decrypt key nonce aad tag_length (encrypt key nonce aad tag_length pt) = some pt

/-- Modelled from the spec: `BLEAESCCMDecryptor.decrypt` of
`src/utils/ble_crypto.py` (file absent from this snapshot), parameterized
by the external AES-CCM primitive.  Key, nonce and tag-length validation
(messages pinned by `tests/test_ble_crypto.py`) raises `CryptoInput`; a
`None` associated-data argument stands for no AAD; authentication failure
of the primitive is returned as `none`, not raised. -/
def ble_aes_ccm_decrypt (A : AEAD) (key nonce ciphertext : List Nat)
    (aad : Option (List Nat)) (tag_length : Nat) :
    Except BLEDecryptionError (Option (List Nat)) :=
  if key.length ≠ 16 then .error ⟨"Key must be 16 bytes"⟩
  else if nonce.length ≠ 13 then .error ⟨"Nonce must be 13 bytes"⟩
  else if tag_length ∉ valid_tag_lengths then .error ⟨"Invalid tag length"⟩
  else .ok (A.decrypt key nonce (aad.getD []) tag_length ciphertext)

/-- The tag of the toy AEAD instance used to witness the AES-CCM theorems:
`tag_length` copies of a checksum of all inputs. -/
def toy_tag (key nonce aad : List Nat) (tag_length : Nat) (pt : List Nat) : List Nat :=
  List.replicate tag_length
    ((key.sum + nonce.sum + aad.sum + pt.sum + pt.length) % 256)

/-- Toy AEAD sealing: plaintext followed by its tag. -/
def toy_encrypt (key nonce aad : List Nat) (tag_length : Nat) (pt : List Nat) : List Nat :=
  pt ++ toy_tag key nonce aad tag_length pt

/-- Toy AEAD opening: strip and check the tag. -/
def toy_decrypt (key nonce aad : List Nat) (tag_length : Nat) (ct : List Nat) :
    Option (List Nat) :=
  if tag_length ≤ ct.length then
    if ct = ct.take (ct.length - tag_length)
          ++ toy_tag key nonce aad tag_length (ct.take (ct.length - tag_length))
    then some (ct.take (ct.length - tag_length)) else none
  else none

/-- The toy AEAD instance: opening a toy-sealed message recovers the
plaintext. -/
def toyAEAD : AEAD where
  encrypt := toy_encrypt
  decrypt := toy_decrypt
  decrypt_encrypt := by
    intro key nonce aad tag_length pt
    have hlen : (toy_encrypt key nonce aad tag_length pt).length = pt.length + tag_length := by
      simp [toy_encrypt, toy_tag]
    have htake : (toy_encrypt key nonce aad tag_length pt).take
        ((toy_encrypt key nonce aad tag_length pt).length - tag_length) = pt := by
      rw [hlen]
      have h : pt.length + tag_length - tag_length = pt.length := by omega
      rw [h]
      simp [toy_encrypt]
    rw [toy_decrypt, if_pos (by omega), htake, if_pos (by rw [toy_encrypt])]

/-- The fields of `BLEPacket` (`src/interfaces/base.py`) that protocol
detection consumes. -/
structure BLEPacket where
  packet_type : String
  data : List Nat
deriving DecidableEq, Repr

/-- The ATT opcodes the dissector recognizes (spec §4.2). -/
def att_opcodes : List Nat :=
  [0x01, 0x02, 0x03, 0x04, 0x05, 0x08, 0x09, 0x0A, 0x0B, 0x12, 0x13, 0x1B, 0x1D, 0x52]

/-- Modelled from the spec: `PacketInspector._detect_protocol` of
`src/analyzers/packet_inspector.py` (file absent from this snapshot).
The spec's ordered rules are adjusted to the behavior the repository's
tests pin (`tests/test_packet_inspector.py`): the 4-byte `[08 00 01 02]`
data payload must detect as `ATT` and the 6-byte `[04 00 04 00 08 00]`
payload as `L2CAP_ATT`, so the CID check (bytes 2..3 = `0x0004` LE)
precedes the ATT-opcode check, without the spec's `len−4` length
consistency condition and without a per-opcode minimum length (the spec's
rule order and extra conditions are incompatible with those tests).
`none` is the `Unknown` outcome. -/
def detect_protocol (p : BLEPacket) : Option String :=
  if p.packet_type = "advertisement" then some "ADV"
  else if 4 ≤ p.data.length ∧ p.data.getD 2 0 = 0x04 ∧ p.data.getD 3 0 = 0x00 then
    some "L2CAP_ATT"
  else
    match p.data with
    | [] => none
    | b :: _ => if b ∈ att_opcodes then some "ATT" else none

/-- `PacketInspector.max_history`, pinned to 1000 by
`tests/test_packet_inspector.py`. -/
def max_history : Nat := 1000

/-- Modelled from the spec: the bounded-history append of
`PacketInspector.inspect_packet` (file absent from this snapshot): append
the new result and, when the bound is exceeded, evict the oldest entry. -/
def push_history {α : Type} (maxh : Nat) (hist : List α) (r : α) : List α :=
  let h2 := hist ++ [r]
  if maxh < h2.length then h2.drop (h2.length - maxh) else h2

/-- The hexadecimal-digit string of a byte sequence (`bytes.hex()`),
one byte becoming two hex digits, high nibble first. -/
def hex_digits : List Nat → List Nat
  | [] => []
  | b :: bs => b / 16 :: b % 16 :: hex_digits bs

/-- The window of `len` hex digits of `l` starting at `i`. -/
def sub_at (l : List Nat) (i len : Nat) : List Nat := (l.drop i).take len

/-- All start positions (in hex digits) at which `pat` occurs in `H`;
overlapping occurrences all count. -/
def occ_positions (pat H : List Nat) : List Nat :=
  (List.range (H.length + 1 - pat.length)).filter (fun i => sub_at H i pat.length = pat)

/-- The number of (overlapping) occurrences of `pat` in `H`. -/
def count_occ (pat H : List Nat) : Nat := (occ_positions pat H).length

/-- The `Pattern` record of `src/analyzers/hex_pattern_matcher.py`:
`hex_pattern` is kept as its hex digits; `length` is the reported length
in bytes. -/
structure Pattern where
  hex_pattern : List Nat
  positions : List Nat
  count : Nat
  frequency : ℚ
  length : Nat
deriving DecidableEq, Repr

/-- Modelled from the spec: the pattern-discovery part of
`HexPatternMatcher.analyze` of `src/analyzers/hex_pattern_matcher.py`
(file absent from this snapshot).  Windows of `L ∈ [min_len, max_len]`
are slid over the data and occurrences counted with overlaps permitted;
the repository's tests (`tests/test_hex_pattern_matcher.py`) pin that the
windows are measured in hex digits of `bytes.hex()`, not in bytes: with
`min_pattern_length=2` the single byte `ff` is a reported pattern, and for
the 4-byte data `ab ab ab 00` the pattern `ab` has frequency `3/7`, the
denominator being the count of length-2 windows of the 8-digit hex string.
Positions are reported in bytes (digit position halved), lengths in bytes
(digit length halved); a window is reported when it occurs at least
twice. -/
def analyze_patterns (min_len max_len : Nat) (data : List Nat) : List Pattern :=
  let H := hex_digits data
  let cands := (List.range' min_len (max_len + 1 - min_len)).flatMap
      (fun l => (List.range (H.length + 1 - l)).map (fun i => sub_at H i l))
  (cands.dedup.filter (fun pat => 2 ≤ count_occ pat H)).map
      (fun pat =>
        { hex_pattern := pat,
          positions := (occ_positions pat H).map (· / 2),
          count := count_occ pat H,
          frequency := (count_occ pat H : ℚ) / ((max 1 (H.length + 1 - pat.length) : ℕ) : ℚ),
          length := pat.length / 2 })

/-- The demonstration Exponential configuration of the spec and
`tests/test_auto_connect_manager.py`: `initial=1, max=10`. -/
def demo_exp_config : ConnectionConfig :=
  { initial_retry_delay := 1, max_retry_delay := 10, retry_strategy := .exponential_backoff }

/-- A connection with the demonstration configuration and a given
`retry_count`. -/
def demo_exp_conn (r : Nat) : ManagedConnection :=
  { address := "AA", config := demo_exp_config, retry_count := r }

/-- A Fixed-strategy connection whose `initial_retry_delay` (100) exceeds
its `max_retry_delay` (60). -/
def fixed_over_max_conn : ManagedConnection :=
  { address := "AA",
    config := { initial_retry_delay := 100, max_retry_delay := 60, retry_strategy := .fixed_interval } }

/-- An Exponential-strategy connection with a negative
`initial_retry_delay` and a given `retry_count`. -/
def neg_exp_conn (r : Nat) : ManagedConnection :=
  { address := "AA",
    config := { initial_retry_delay := -1, retry_strategy := .exponential_backoff },
    retry_count := r }

/-- A connection whose retry count has reached the default
`max_retries = 5`, with all other `should_retry` preconditions satisfied
(enabled, unpaused, no consecutive failures). -/
def exhausted_conn : ManagedConnection :=
  { address := "AA", config := {}, retry_count := 5 }

/-- A manager managing only `exhausted_conn` at address "AA". -/
def exhausted_mgr : AutoConnectManager :=
  { managed_connections := [("AA", exhausted_conn)] }

/-- A connection whose `consecutive_failures` has reached the default
`max_consecutive_failures = 3`, with `retry_count` still 0 and the other
`should_retry` preconditions satisfied (enabled, unpaused). -/
def consec_exhausted_conn : ManagedConnection :=
  { address := "BB", config := {}, metrics := { consecutive_failures := 3 } }

/-- A manager managing only `consec_exhausted_conn` at address "BB". -/
def consec_exhausted_mgr : AutoConnectManager :=
  { managed_connections := [("BB", consec_exhausted_conn)] }

/-- The 4-byte test data `ab ab ab 00` of
`tests/test_hex_pattern_matcher.py` (`test_pattern_frequency`). -/
def ab_data : List Nat := [0xAB, 0xAB, 0xAB, 0x00]

/-- The report the analyzer produces for the pattern `ab` on `ab_data`:
the image of the hex-digit pattern `[10, 11]` under the reporting map of
`analyze_patterns`. -/
def ab_pattern_report : Pattern :=
  { hex_pattern := [10, 11],
    positions := (occ_positions [10, 11] (hex_digits ab_data)).map (· / 2),
    count := count_occ [10, 11] (hex_digits ab_data),
    frequency := (count_occ [10, 11] (hex_digits ab_data) : ℚ)
      / ((max 1 ((hex_digits ab_data).length + 1 - ([10, 11] : List ℕ).length) : ℕ) : ℚ),
    length := ([10, 11] : List ℕ).length / 2 }

/-! Supporting lemmas. -/

theorem update_metrics_total (m : ConnectionMetrics) (s : Bool) (t : Option ℚ) (now : ℚ) :
    (update_metrics m s t now).total_attempts = m.total_attempts + 1 := by
  cases s <;> cases t <;> simp [update_metrics]
  split <;> rfl

theorem update_metrics_successful (m : ConnectionMetrics) (s : Bool) (t : Option ℚ) (now : ℚ) :
    (update_metrics m s t now).successful_connections =
      if s then m.successful_connections + 1 else m.successful_connections := by
  cases s <;> cases t <;> simp [update_metrics]
  split <;> rfl

theorem update_metrics_failed (m : ConnectionMetrics) (s : Bool) (t : Option ℚ) (now : ℚ) :
    (update_metrics m s t now).failed_connections =
      if s then m.failed_connections else m.failed_connections + 1 := by
  cases s <;> cases t <;> simp [update_metrics]
  split <;> rfl

theorem update_metrics_stability (m : ConnectionMetrics) (s : Bool) (t : Option ℚ) (now : ℚ) :
    (update_metrics m s t now).stability_score =
      ((update_metrics m s t now).successful_connections : ℚ) /
        ((update_metrics m s t now).total_attempts : ℚ) := by
  cases s <;> cases t <;> simp [update_metrics]

theorem update_metrics_consecutive (m : ConnectionMetrics) (s : Bool) (t : Option ℚ) (now : ℚ) :
    (update_metrics m s t now).consecutive_failures =
      if s then 0 else m.consecutive_failures + 1 := by
  cases s <;> cases t <;> simp [update_metrics]
  split <;> rfl

end BlueFusion

namespace BlueFusion

/-- C4: starting from fresh `ConnectionMetrics`, after any sequence of
`update_metrics` calls, `successful_connections + failed_connections =
total_attempts` and `stability_score = successful_connections /
max(1, total_attempts)`; moreover any successful update resets
`consecutive_failures` to 0 and any failed update increments it by 1. -/
theorem connection_metrics_invariants :
    (∀ updates : List (Bool × Option ℚ × ℚ),
      (updates.foldl (fun m u => update_metrics m u.1 u.2.1 u.2.2)
          ({} : ConnectionMetrics)).successful_connections
        + (updates.foldl (fun m u => update_metrics m u.1 u.2.1 u.2.2)
          ({} : ConnectionMetrics)).failed_connections
        = (updates.foldl (fun m u => update_metrics m u.1 u.2.1 u.2.2)
          ({} : ConnectionMetrics)).total_attempts
      ∧ (updates.foldl (fun m u => update_metrics m u.1 u.2.1 u.2.2)
          ({} : ConnectionMetrics)).stability_score
        = ((updates.foldl (fun m u => update_metrics m u.1 u.2.1 u.2.2)
          ({} : ConnectionMetrics)).successful_connections : ℚ)
          / ((max 1 (updates.foldl (fun m u => update_metrics m u.1 u.2.1 u.2.2)
          ({} : ConnectionMetrics)).total_attempts : ℕ) : ℚ))
    ∧ (∀ (m : ConnectionMetrics) (t : Option ℚ) (now : ℚ),
        (update_metrics m true t now).consecutive_failures = 0
        ∧ (update_metrics m false t now).consecutive_failures
          = m.consecutive_failures + 1) := by
  constructor
  · have key : ∀ (updates : List (Bool × Option ℚ × ℚ)) (m : ConnectionMetrics),
        (m.successful_connections + m.failed_connections = m.total_attempts
          ∧ m.stability_score
            = (m.successful_connections : ℚ) / ((max 1 m.total_attempts : ℕ) : ℚ)) →
        ((updates.foldl (fun m u => update_metrics m u.1 u.2.1 u.2.2) m).successful_connections
          + (updates.foldl (fun m u => update_metrics m u.1 u.2.1 u.2.2) m).failed_connections
          = (updates.foldl (fun m u => update_metrics m u.1 u.2.1 u.2.2) m).total_attempts
        ∧ (updates.foldl (fun m u => update_metrics m u.1 u.2.1 u.2.2) m).stability_score
          = ((updates.foldl (fun m u => update_metrics m u.1 u.2.1 u.2.2) m).successful_connections : ℚ)
            / ((max 1 (updates.foldl (fun m u => update_metrics m u.1 u.2.1 u.2.2) m).total_attempts : ℕ) : ℚ)) := by
      intro updates
      induction updates with
      | nil => intro m hm; exact hm
      | cons u us ih =>
        intro m hm
        simp only [List.foldl_cons]
        apply ih
        constructor
        · rw [update_metrics_successful, update_metrics_failed, update_metrics_total]
          cases u.1 <;> simp <;> omega
        · rw [update_metrics_stability]
          have h2 : max 1 ((update_metrics m u.1 u.2.1 u.2.2).total_attempts)
              = (update_metrics m u.1 u.2.1 u.2.2).total_attempts := by
            rw [update_metrics_total]; omega
          rw [h2]
    intro updates
    exact key updates {} (by constructor <;> simp)
  · intro m t now
    constructor <;> rw [update_metrics_consecutive] <;> simp

/-- C3 (counterexample to the claim as stated): with the Fixed strategy and
`initial_retry_delay = 100 > max_retry_delay = 60`, `calculate_retry_delay`
returns 60, not `initial_retry_delay`; and with a negative
`initial_retry_delay` the Exponential delay strictly decreases in
`retry_count`, so the delay is not monotone non-decreasing for every
`ManagedConnection`. -/
theorem calculate_retry_delay_claim_counterexample :
    calculate_retry_delay fixed_over_max_conn = 60
    ∧ (60 : ℚ) ≠ 100
    ∧ calculate_retry_delay (neg_exp_conn 1) < calculate_retry_delay (neg_exp_conn 0) := by
  refine ⟨?_, by norm_num, ?_⟩ <;>
    simp [calculate_retry_delay, fixed_over_max_conn, neg_exp_conn] <;> norm_num

/-- C3 (amended): `calculate_retry_delay` returns
`min(initial · 2^retry_count, max)` under Exponential,
`min(initial · (1 + retry_count), max)` under Linear and
`min(initial, max)` under Fixed; it never exceeds `max_retry_delay`, and
for non-negative `initial_retry_delay` it is monotone non-decreasing in
`retry_count`; with `initial = 1, max = 10`, Exponential, retry counts
0, 1, 2, 3, 10 give delays 1, 2, 4, 8, 10. -/
theorem calculate_retry_delay_amended_spec (c : ManagedConnection) (r1 r2 : Nat)
    (h12 : r1 ≤ r2) (h0 : 0 ≤ c.config.initial_retry_delay) :
    (c.config.retry_strategy = .exponential_backoff →
      calculate_retry_delay c
        = min (c.config.initial_retry_delay * 2 ^ c.retry_count) c.config.max_retry_delay)
    ∧ (c.config.retry_strategy = .linear_backoff →
      calculate_retry_delay c
        = min (c.config.initial_retry_delay * (1 + (c.retry_count : ℚ))) c.config.max_retry_delay)
    ∧ (c.config.retry_strategy = .fixed_interval →
      calculate_retry_delay c = min c.config.initial_retry_delay c.config.max_retry_delay)
    ∧ calculate_retry_delay c ≤ c.config.max_retry_delay
    ∧ calculate_retry_delay { c with retry_count := r1 }
        ≤ calculate_retry_delay { c with retry_count := r2 }
    ∧ List.map (fun r => calculate_retry_delay (demo_exp_conn r))
        [0, 1, 2, 3, 10] = [1, 2, 4, 8, 10] := by
  refine ⟨fun h => by simp [calculate_retry_delay, h],
          fun h => by simp [calculate_retry_delay, h],
          fun h => by simp [calculate_retry_delay, h],
          min_le_right _ _, ?_,
          by simp [calculate_retry_delay, demo_exp_conn, demo_exp_config]; norm_num⟩
  unfold calculate_retry_delay
  cases hs : c.config.retry_strategy <;> simp only
  · exact min_le_min (mul_le_mul_of_nonneg_left
      (pow_le_pow_right₀ one_le_two h12) h0) le_rfl
  · exact le_rfl
  · exact min_le_min (mul_le_mul_of_nonneg_left
      (by exact_mod_cast add_le_add_left (Nat.cast_le.mpr h12) 1) h0) le_rfl

/-- C3 (witness): the amended theorem at a concrete connection. -/
theorem calculate_retry_delay_amended_spec_witness :
    calculate_retry_delay { demo_exp_conn 0 with retry_count := 0 }
      ≤ calculate_retry_delay { demo_exp_conn 0 with retry_count := 3 }
    ∧ List.map (fun r => calculate_retry_delay (demo_exp_conn r))
        [0, 1, 2, 3, 10] = [1, 2, 4, 8, 10] := by
  have h := calculate_retry_delay_amended_spec (demo_exp_conn 0) 0 3
    (by norm_num) (by norm_num [demo_exp_conn, demo_exp_config])
  exact ⟨h.2.2.2.2.1, h.2.2.2.2.2⟩

end BlueFusion

namespace BlueFusion

theorem lookup_set_entry (address : String) (c : ManagedConnection) :
    ∀ l : List (String × ManagedConnection), (lookup_addr address l).isSome →
      lookup_addr address
        (l.map (fun p => if p.1 = address then (address, c) else p)) = some c := by
  intro l
  induction l with
  | nil => intro h; simp [lookup_addr] at h
  | cons p tl ih =>
      obtain ⟨k, v⟩ := p
      intro h
      simp only [List.map_cons]
      dsimp only
      by_cases hk : k = address
      · subst hk
        rw [if_pos rfl]
        simp [lookup_addr]
      · rw [if_neg hk]
        simp only [lookup_addr] at h ⊢
        rw [if_neg hk] at h ⊢
        exact ih h

theorem find_conn_set_conn (m : AutoConnectManager) (address : String)
    (c0 c : ManagedConnection) (h : find_conn m address = some c0) :
    find_conn (set_conn m address c) address = some c := by
  apply lookup_set_entry
  rw [find_conn] at h
  rw [h]
  rfl

end BlueFusion

namespace BlueFusion

/-- C5 (counterexample to the claim as stated): for a device whose
`retry_count` has reached `max_retries` while every other `should_retry`
precondition holds, neither `enable_device` nor `pause_device(0)` makes
`should_retry` true again — both leave `retry_count` untouched, so
`should_retry` stays false. -/
theorem should_retry_intervention_counterexample :
    should_retry exhausted_conn 0 = false
    ∧ exhausted_conn.is_enabled = true
    ∧ exhausted_conn.pause_until = none
    ∧ exhausted_conn.metrics.consecutive_failures
        < exhausted_conn.config.max_consecutive_failures
    ∧ (find_conn (enable_device exhausted_mgr "AA").1 "AA").map
        (fun c => should_retry c 0) = some false
    ∧ (find_conn (pause_device exhausted_mgr "AA" 0 0).1 "AA").map
        (fun c => should_retry c 0) = some false := by
  refine ⟨by decide, by decide, by decide, by decide, by decide, ?_⟩
  have e1 : (pause_device exhausted_mgr "AA" 0 0).1
      = set_conn exhausted_mgr "AA" (conn_pause exhausted_conn 0 0) := by
    simp [pause_device, find_conn, exhausted_mgr, lookup_addr]
  rw [e1]
  have e2 : find_conn (set_conn exhausted_mgr "AA" (conn_pause exhausted_conn 0 0)) "AA"
      = some (conn_pause exhausted_conn 0 0) :=
    find_conn_set_conn exhausted_mgr "AA" exhausted_conn _ (by decide)
  rw [e2]
  simp [should_retry, pause_blocks, conn_pause, exhausted_conn]

theorem should_retry_false_of_exhausted (c : ManagedConnection) (now : ℚ)
    (hex : c.config.max_retries ≤ c.retry_count
      ∨ c.config.max_consecutive_failures ≤ c.metrics.consecutive_failures) :
    should_retry c now = false := by
  by_cases h1 : ¬ c.is_enabled
  · simp [should_retry, h1]
  · by_cases h2 : pause_blocks c now
    · simp [should_retry, h1, h2]
    · rcases hex with hx | hx
      · simp [should_retry, h1, h2, hx]
      · by_cases hr : c.config.max_retries ≤ c.retry_count
        · simp [should_retry, h1, h2, hr]
        · simp [should_retry, h1, h2, hr, hx]

/-- C5 (amended): when `retry_count ≥ max_retries` or
`consecutive_failures ≥ max_consecutive_failures`, `should_retry` is
false; `enable_device` and `pause_device(0)` reset neither counter, so
`should_retry` stays false after them; a `connection` BLE event for the
address resets `retry_count` to 0 but leaves `consecutive_failures`
unchanged, so it makes `should_retry` true again exactly when the
exhaustion was through `retry_count` alone (the device being enabled,
unpaused, with `consecutive_failures` below its maximum), while
exhaustion through `consecutive_failures` persists through the event. -/
theorem policy_exhausted_amended_spec
    (mgr : AutoConnectManager) (addr : String) (c : ManagedConnection) (now : ℚ)
    (hfind : find_conn mgr addr = some c)
    (hen : c.is_enabled = true)
    (hpause : c.pause_until = none)
    (hex : c.config.max_retries ≤ c.retry_count
      ∨ c.config.max_consecutive_failures ≤ c.metrics.consecutive_failures) :
    should_retry c now = false
    ∧ (find_conn (enable_device mgr addr).1 addr).map
        (fun c2 => should_retry c2 now) = some false
    ∧ (find_conn (pause_device mgr addr 0 now).1 addr).map
        (fun c2 => should_retry c2 now) = some false
    ∧ (find_conn (on_ble_event mgr ⟨addr, "connection"⟩ now) addr).map
        (fun c2 => c2.retry_count) = some 0
    ∧ (find_conn (on_ble_event mgr ⟨addr, "connection"⟩ now) addr).map
        (fun c2 => c2.metrics.consecutive_failures)
        = some c.metrics.consecutive_failures
    ∧ (c.metrics.consecutive_failures < c.config.max_consecutive_failures →
        0 < c.config.max_retries →
        (find_conn (on_ble_event mgr ⟨addr, "connection"⟩ now) addr).map
          (fun c2 => should_retry c2 now) = some true)
    ∧ (c.config.max_consecutive_failures ≤ c.metrics.consecutive_failures →
        (find_conn (on_ble_event mgr ⟨addr, "connection"⟩ now) addr).map
          (fun c2 => should_retry c2 now) = some false) := by
  have eEn : (enable_device mgr addr).1
      = set_conn mgr addr { c with is_enabled := true } := by
    simp [enable_device, hfind]
  have ePa : (pause_device mgr addr 0 now).1
      = set_conn mgr addr (conn_pause c 0 now) := by
    simp [pause_device, hfind]
  have eEv : on_ble_event mgr ⟨addr, "connection"⟩ now
      = set_conn mgr addr
          { c with last_activity := some now, state := .connected, retry_count := 0 } := by
    simp [on_ble_event, hfind]
  refine ⟨should_retry_false_of_exhausted c now hex, ?_, ?_, ?_, ?_, ?_, ?_⟩
  · rw [eEn, find_conn_set_conn mgr addr c _ hfind]
    exact congrArg some (should_retry_false_of_exhausted _ now hex)
  · rw [ePa, find_conn_set_conn mgr addr c _ hfind]
    exact congrArg some (should_retry_false_of_exhausted _ now hex)
  · rw [eEv, find_conn_set_conn mgr addr c _ hfind]
    rfl
  · rw [eEv, find_conn_set_conn mgr addr c _ hfind]
    rfl
  · intro hcons hmr
    rw [eEv, find_conn_set_conn mgr addr c _ hfind]
    simp [should_retry, pause_blocks, hen, hpause,
      Nat.not_le.mpr hcons, Nat.not_le.mpr hmr]
  · intro hcons
    rw [eEv, find_conn_set_conn mgr addr c _ hfind]
    exact congrArg some (should_retry_false_of_exhausted _ now (Or.inr hcons))

/-- C5 (witness): the amended theorem at both concrete exhausted devices:
exhaustion through `retry_count` is cleared by the connection event, while
exhaustion through `consecutive_failures` persists through it. -/
theorem policy_exhausted_amended_spec_witness :
    should_retry exhausted_conn 0 = false
    ∧ (find_conn (on_ble_event exhausted_mgr ⟨"AA", "connection"⟩ 0) "AA").map
        (fun c2 => should_retry c2 0) = some true
    ∧ should_retry consec_exhausted_conn 0 = false
    ∧ (find_conn (on_ble_event consec_exhausted_mgr ⟨"BB", "connection"⟩ 0) "BB").map
        (fun c2 => should_retry c2 0) = some false := by
  have h1 := policy_exhausted_amended_spec exhausted_mgr "AA" exhausted_conn 0
    (by decide) (by decide) (by decide) (Or.inl (by decide))
  have h2 := policy_exhausted_amended_spec consec_exhausted_mgr "BB" consec_exhausted_conn 0
    (by decide) (by decide) (by decide) (Or.inr (by decide))
  exact ⟨h1.1, h1.2.2.2.2.2.1 (by decide) (by decide), h2.1,
    h2.2.2.2.2.2.2 (by decide)⟩

/-- C10: for an address that is not managed, `get_connection_status`
returns `None` and `enable_device`, `disable_device` and `pause_device`
leave the manager unchanged and emit no event. -/
theorem unmanaged_address_noop
    (m : AutoConnectManager) (addr : String) (d now : ℚ)
    (h : find_conn m addr = none) :
    get_connection_status m addr = none
    ∧ enable_device m addr = (m, [])
    ∧ disable_device m addr = (m, [])
    ∧ pause_device m addr d now = (m, []) := by
  refine ⟨?_, ?_, ?_, ?_⟩ <;>
    simp [get_connection_status, enable_device, disable_device, pause_device, h]

/-- C10 (witness): the theorem at the empty manager and a concrete
address. -/
theorem unmanaged_address_noop_witness :
    get_connection_status {} "XX" = none
    ∧ enable_device {} "XX" = ({}, [])
    ∧ disable_device {} "XX" = ({}, [])
    ∧ pause_device {} "XX" 1 0 = ({}, []) := by
  have h := unmanaged_address_noop {} "XX" 1 0 rfl
  exact ⟨h.1, h.2.1, h.2.2.1, h.2.2.2⟩

end BlueFusion

namespace BlueFusion

theorem lor_128_of_lt : ∀ x : Nat, x < 128 → x ||| 128 = x + 128 := by decide

theorem land_127_of_lt : ∀ x : Nat, x < 128 → x &&& 127 = x := by decide

theorem xor_apply_xor_apply (f : Nat → Nat) :
    ∀ (l : List Nat) (i : Nat), xor_apply f i (xor_apply f i l) = l := by
  intro l
  induction l with
  | nil => intro i; rfl
  | cons b bs ih =>
      intro i
      show (((b ^^^ f i) ^^^ f i) :: xor_apply f (i + 1) (xor_apply f (i + 1) bs)) = b :: bs
      rw [ih, Nat.xor_assoc, Nat.xor_self, Nat.xor_zero]

/-- C1: for an 8-byte IV, `construct_ble_nonce` succeeds on every counter
up to `2^39 − 1`, returning the 13-byte nonce `IV ∥ counter_le(5)` whose
last byte carries the direction flag in its high bit, and fails with the
`CryptoInput` error (`BLEDecryptionError`) on every counter of `2^39` or
more. -/
theorem construct_ble_nonce_spec (iv : List Nat) (c : Nat) (d : Bool)
    (hiv : iv.length = 8) :
    (c ≤ 2 ^ 39 - 1 →
      construct_ble_nonce iv c d = .ok (iv ++ le5_with_dir c d)
      ∧ (iv ++ le5_with_dir c d).length = 13)
    ∧ (2 ^ 39 ≤ c →
      construct_ble_nonce iv c d = .error ⟨"Packet counter too large"⟩) := by
  have hpow : (2 : ℕ) ^ 39 = 549755813888 := by norm_num
  constructor
  · intro hc
    rw [hpow] at hc
    have hc39 : ¬ (2 : ℕ) ^ 39 ≤ c := by rw [hpow]; omega
    have h4 : c / 4294967296 < 128 := by omega
    have h4b : c / 4294967296 < 256 := by omega
    have hcb : [c % 256, c / 256 % 256, c / 256 ^ 2 % 256, c / 256 ^ 3 % 256,
        if d then c / 256 ^ 4 % 256 ||| 128 else c / 256 ^ 4 % 256 &&& 127]
        = le5_with_dir c d := by
      have e4 : c / 256 ^ 4 = c / 4294967296 := by norm_num
      cases d
      · rw [le5_with_dir]
        norm_num [e4]
        rw [Nat.mod_eq_of_lt h4b, land_127_of_lt _ h4, Nat.mod_eq_of_lt h4]
      · rw [le5_with_dir]
        norm_num [e4]
        rw [Nat.mod_eq_of_lt h4b, lor_128_of_lt _ h4, Nat.mod_eq_of_lt h4]
    constructor
    · rw [construct_ble_nonce, if_neg (by rw [hiv]; exact fun h => h rfl), if_neg hc39]
      show Except.ok (iv ++ [c % 256, c / 256 % 256, c / 256 ^ 2 % 256, c / 256 ^ 3 % 256,
          if d then c / 256 ^ 4 % 256 ||| 128 else c / 256 ^ 4 % 256 &&& 127])
        = Except.ok (iv ++ le5_with_dir c d)
      rw [hcb]
    · simp [le5_with_dir, hiv]
  · intro hc
    rw [construct_ble_nonce, if_neg (by rw [hiv]; exact fun h => h rfl), if_pos hc]

/-- C1 (witness): the boundary counters at a concrete IV: `2^39 − 1` is
accepted, `2^39` is rejected. -/
theorem construct_ble_nonce_spec_witness :
    construct_ble_nonce [0, 0, 0, 0, 0, 0, 0, 0] (2 ^ 39 - 1) true
      = .ok [0, 0, 0, 0, 0, 0, 0, 0, 255, 255, 255, 255, 255]
    ∧ construct_ble_nonce [0, 0, 0, 0, 0, 0, 0, 0] (2 ^ 39) true
      = .error ⟨"Packet counter too large"⟩ := by
  have h1 := (construct_ble_nonce_spec [0, 0, 0, 0, 0, 0, 0, 0] (2 ^ 39 - 1) true rfl).1
    le_rfl
  have h2 := (construct_ble_nonce_spec [0, 0, 0, 0, 0, 0, 0, 0] (2 ^ 39) true rfl).2
    le_rfl
  refine ⟨?_, h2⟩
  rw [h1.1]
  norm_num [le5_with_dir]

/-- C6 (counterexample to the claim as stated): the round-trip fails for
the empty plaintext — its XOR encryption is the empty ciphertext, which
`xor_decrypt` rejects with the `Ciphertext cannot be empty` error instead
of returning the empty plaintext. -/
theorem xor_roundtrip_claim_counterexample :
    xor_encrypt [66] [] = []
    ∧ xor_decrypt [66] (xor_encrypt [66] []) = .error ⟨"Ciphertext cannot be empty"⟩
    ∧ Except.error ⟨"Ciphertext cannot be empty"⟩
        ≠ (Except.ok [] : Except BLEDecryptionError (List Nat)) := by
  refine ⟨rfl, rfl, fun h => Except.noConfusion h⟩

/-- C6 (amended): for every non-empty key and every NON-EMPTY plaintext,
XOR decryption inverts repeating-key XOR encryption; for the empty
plaintext (empty ciphertext) `xor_decrypt` raises `BLEDecryptionError`
instead. -/
theorem xor_roundtrip_amended_spec (key p : List Nat) (hk : key ≠ []) :
    (p ≠ [] → xor_decrypt key (xor_encrypt key p) = .ok p)
    ∧ xor_decrypt key [] = .error ⟨"Ciphertext cannot be empty"⟩ := by
  constructor
  · intro hp
    have hne : xor_encrypt key p ≠ [] := by
      cases p with
      | nil => exact absurd rfl hp
      | cons b bs => simp [xor_encrypt, xor_apply]
    rw [xor_decrypt, if_neg hk, if_neg hne, xor_encrypt,
      xor_apply_xor_apply (xor_keystream key 0 false) p 0]
  · rw [xor_decrypt, if_neg hk, if_pos rfl]

/-- C6 (witness): the amended theorem at a concrete key and plaintext. -/
theorem xor_roundtrip_amended_spec_witness :
    xor_decrypt [66] (xor_encrypt [66] [1, 2, 3]) = .ok [1, 2, 3]
    ∧ xor_decrypt [66] [] = .error ⟨"Ciphertext cannot be empty"⟩ := by
  have h := xor_roundtrip_amended_spec [66] [1, 2, 3] (by simp)
  exact ⟨h.1 (by simp), h.2⟩

/-- C7: `ble_aes_ccm_decrypt` raises the `CryptoInput` error exactly when
the key is not 16 bytes, the nonce is not 13 bytes, or the tag length is
not in {4,6,8,10,12,14,16}; on valid parameters an authentication failure
of the AEAD primitive is returned as `none` rather than raised, and a
ciphertext sealed with the same key, nonce, AAD and tag length decrypts to
the original plaintext. -/
theorem aes_ccm_decrypt_spec (A : AEAD) (key nonce ciphertext : List Nat)
    (aad : Option (List Nat)) (tag_length : Nat) :
    ((∃ e, ble_aes_ccm_decrypt A key nonce ciphertext aad tag_length = .error e)
      ↔ (key.length ≠ 16 ∨ nonce.length ≠ 13 ∨ tag_length ∉ valid_tag_lengths))
    ∧ (key.length = 16 → nonce.length = 13 → tag_length ∈ valid_tag_lengths →
        (A.decrypt key nonce (aad.getD []) tag_length ciphertext = none →
          ble_aes_ccm_decrypt A key nonce ciphertext aad tag_length = .ok none)
        ∧ ∀ pt, ciphertext = A.encrypt key nonce (aad.getD []) tag_length pt →
            ble_aes_ccm_decrypt A key nonce ciphertext aad tag_length
              = .ok (some pt)) := by
  constructor
  · rw [ble_aes_ccm_decrypt]
    by_cases h1 : key.length ≠ 16
    · rw [if_pos h1]
      exact ⟨fun _ => Or.inl h1, fun _ => ⟨_, rfl⟩⟩
    · rw [if_neg h1]
      by_cases h2 : nonce.length ≠ 13
      · rw [if_pos h2]
        exact ⟨fun _ => Or.inr (Or.inl h2), fun _ => ⟨_, rfl⟩⟩
      · rw [if_neg h2]
        by_cases h3 : tag_length ∉ valid_tag_lengths
        · rw [if_pos h3]
          exact ⟨fun _ => Or.inr (Or.inr h3), fun _ => ⟨_, rfl⟩⟩
        · rw [if_neg h3]
          constructor
          · rintro ⟨e, he⟩
            exact Except.noConfusion he
          · rintro (h | h | h)
            · exact absurd h h1
            · exact absurd h h2
            · exact absurd h h3
  · intro h1 h2 h3
    have hred : ble_aes_ccm_decrypt A key nonce ciphertext aad tag_length
        = .ok (A.decrypt key nonce (aad.getD []) tag_length ciphertext) := by
      rw [ble_aes_ccm_decrypt, if_neg (by simp [h1]), if_neg (by simp [h2]),
        if_neg (by simp [h3])]
    constructor
    · intro hnone
      rw [hred, hnone]
    · intro pt hpt
      rw [hred, hpt, A.decrypt_encrypt]

/-- C7 (witness): the theorem at the toy AEAD primitive — a round-trip at
concrete inputs, a `none` return on a tampered ciphertext, and a
`CryptoInput` error for a 1-byte key. -/
theorem aes_ccm_decrypt_spec_witness :
    ble_aes_ccm_decrypt toyAEAD (List.replicate 16 0) (List.replicate 13 0)
        (toyAEAD.encrypt (List.replicate 16 0) (List.replicate 13 0) [] 4 [1, 2, 3])
        none 4
      = .ok (some [1, 2, 3])
    ∧ ble_aes_ccm_decrypt toyAEAD (List.replicate 16 0) (List.replicate 13 0)
        [1, 2, 3, 9, 9, 9, 8] none 4 = .ok none
    ∧ (∃ e, ble_aes_ccm_decrypt toyAEAD [0] (List.replicate 13 0) [1] none 4
        = .error e) := by
  refine ⟨?_, ?_, ?_⟩
  · exact ((aes_ccm_decrypt_spec toyAEAD (List.replicate 16 0) (List.replicate 13 0)
      (toyAEAD.encrypt (List.replicate 16 0) (List.replicate 13 0) [] 4 [1, 2, 3])
      none 4).2 (by decide) (by decide) (by decide)).2 [1, 2, 3] rfl
  · exact ((aes_ccm_decrypt_spec toyAEAD (List.replicate 16 0) (List.replicate 13 0)
      [1, 2, 3, 9, 9, 9, 8] none 4).2 (by decide) (by decide) (by decide)).1 (by decide)
  · exact (aes_ccm_decrypt_spec toyAEAD [0] (List.replicate 13 0) [1] none 4).1.mpr
      (Or.inl (by decide))

end BlueFusion

namespace BlueFusion

theorem push_history_eq {α : Type} (maxh : Nat) (h : List α) (r : α) :
    push_history maxh h r = (h ++ [r]).drop ((h.length + 1) - maxh) := by
  rw [push_history]
  by_cases hc : maxh < (h ++ [r]).length
  · rw [if_pos hc]
    simp
  · rw [if_neg hc]
    simp only [List.length_append, List.length_singleton] at hc
    have e : h.length + 1 - maxh = 0 := by omega
    rw [e, List.drop_zero]

theorem foldl_push_history {α : Type} (maxh : Nat) :
    ∀ (rs : List α) (h : List α), h.length ≤ maxh →
      List.foldl (push_history maxh) h rs
        = (h ++ rs).drop ((h.length + rs.length) - maxh) := by
  intro rs
  induction rs with
  | nil =>
      intro h hh
      have e : h.length + List.length ([] : List α) - maxh = 0 := by
        simp
        omega
      rw [List.foldl_nil, List.append_nil, e, List.drop_zero]
  | cons r rs ih =>
      intro h hh
      rw [List.foldl_cons, push_history_eq]
      have hk : h.length + 1 - maxh ≤ (h ++ [r]).length := by
        simp only [List.length_append, List.length_singleton]
        omega
      have hlen : ((h ++ [r]).drop ((h.length + 1) - maxh)).length ≤ maxh := by
        simp only [List.length_drop, List.length_append, List.length_singleton]
        omega
      have e2 : (h ++ [r]) ++ rs = h ++ r :: rs := by simp
      have hlen2 : ((h ++ [r]).drop ((h.length + 1) - maxh)).length
          = (h.length + 1) - ((h.length + 1) - maxh) := by
        simp only [List.length_drop, List.length_append, List.length_singleton]
      rw [ih _ hlen, ← List.drop_append_of_le_length hk, List.drop_drop, e2, hlen2]
      simp only [List.length_cons]
      congr 1
      omega

/-- C9: after any sequence of inspections starting from an empty history,
the bounded history holds at most `maxh` results, and equals exactly the
most recent `maxh` results in arrival (FIFO) order — appending past the
bound evicts the oldest entries; the default bound `max_history` is
1000. -/
theorem packet_history_spec {α : Type} (maxh : Nat) (rs : List α) :
    (List.foldl (push_history maxh) [] rs).length ≤ maxh
    ∧ List.foldl (push_history maxh) [] rs = rs.drop (rs.length - maxh)
    ∧ max_history = 1000 := by
  have h := foldl_push_history maxh rs [] (by simp)
  simp only [List.nil_append, List.length_nil, Nat.zero_add] at h
  refine ⟨?_, h, rfl⟩
  rw [h]
  simp only [List.length_drop]
  omega

/-- C2 (counterexample to the claim as stated): the 6-byte data payload
`04 00 04 00 08 00` is detected as `L2CAP_ATT`, not `ATT` — the CID check
wins even though byte 0 is a known ATT opcode and the declared L2CAP
length 4 differs from `len − 4 = 2`. -/
theorem detect_protocol_claim_counterexample :
    detect_protocol { packet_type := "data", data := [0x04, 0x00, 0x04, 0x00, 0x08, 0x00] }
      = some "L2CAP_ATT"
    ∧ (some "L2CAP_ATT" : Option String) ≠ some "ATT" := by
  exact ⟨by decide, by decide⟩

/-- C2 (amended): detection applies its rules in order with the first
match winning — advertisement packets are `ADV`; otherwise a payload of
length ≥ 4 whose bytes 2..3 equal `0x0004` little-endian is `L2CAP_ATT`
(bytes 0..1 are not compared with `len − 4`); otherwise a payload whose
first byte is a known ATT opcode is `ATT` (with no minimum-length
requirement); otherwise `Unknown` (`none`).  In particular the payload
`04 00 04 00 08 00` yields `L2CAP_ATT`. -/
theorem detect_protocol_amended_spec (p : BLEPacket) :
    (detect_protocol p = some "ADV" ↔ p.packet_type = "advertisement")
    ∧ (detect_protocol p = some "L2CAP_ATT" ↔
        (p.packet_type ≠ "advertisement" ∧ 4 ≤ p.data.length
          ∧ p.data.getD 2 0 + 256 * p.data.getD 3 0 = 4))
    ∧ (detect_protocol p = some "ATT" ↔
        (p.packet_type ≠ "advertisement"
          ∧ ¬(4 ≤ p.data.length ∧ p.data.getD 2 0 + 256 * p.data.getD 3 0 = 4)
          ∧ ∃ b bs, p.data = b :: bs ∧ b ∈ att_opcodes))
    ∧ detect_protocol { packet_type := "data", data := [0x04, 0x00, 0x04, 0x00, 0x08, 0x00] }
      = some "L2CAP_ATT" := by
  obtain ⟨pt, data⟩ := p
  dsimp only
  have hle : (data.getD 2 0 = 4 ∧ data.getD 3 0 = 0)
      ↔ data.getD 2 0 + 256 * data.getD 3 0 = 4 := by omega
  by_cases ha : pt = "advertisement"
  · rw [detect_protocol, if_pos ha]
    refine ⟨⟨fun _ => ha, fun _ => rfl⟩, ?_, ?_, by decide⟩
    · exact ⟨fun h => absurd h (by decide), fun h => absurd ha h.1⟩
    · exact ⟨fun h => absurd h (by decide), fun h => absurd ha h.1⟩
  · rw [detect_protocol, if_neg ha]
    by_cases hl : 4 ≤ data.length ∧ data.getD 2 0 = 4 ∧ data.getD 3 0 = 0
    · rw [if_pos hl]
      refine ⟨?_, ?_, ?_, by decide⟩
      · exact ⟨fun h => absurd h (by decide), fun h => absurd h ha⟩
      · exact ⟨fun _ => ⟨ha, hl.1, hle.mp hl.2⟩, fun _ => rfl⟩
      · exact ⟨fun h => absurd h (by decide),
          fun h => absurd ⟨hl.1, hle.mp hl.2⟩ h.2.1⟩
    · rw [if_neg hl]
      have hnl : ¬(4 ≤ data.length ∧ data.getD 2 0 + 256 * data.getD 3 0 = 4) := by
        intro hcon
        exact hl ⟨hcon.1, hle.mpr hcon.2⟩
      cases data with
      | nil =>
          refine ⟨?_, ?_, ?_, by decide⟩
          · exact ⟨fun h => Option.noConfusion h, fun h => absurd h ha⟩
          · refine ⟨fun h => Option.noConfusion h, fun h => ?_⟩
            exact absurd h.2.1 (by simp)
          · refine ⟨fun h => Option.noConfusion h, fun h => ?_⟩
            obtain ⟨b, bs, hbs, _⟩ := h.2.2
            exact List.noConfusion hbs
      | cons b bs =>
          dsimp only
          by_cases hb : b ∈ att_opcodes
          · rw [if_pos hb]
            refine ⟨?_, ?_, ?_, by decide⟩
            · exact ⟨fun h => absurd h (by decide), fun h => absurd h ha⟩
            · refine ⟨fun h => absurd h (by decide), fun h => ?_⟩
              exact absurd h.2 hnl
            · exact ⟨fun _ => ⟨ha, hnl, b, bs, rfl, hb⟩, fun _ => rfl⟩
          · rw [if_neg hb]
            refine ⟨?_, ?_, ?_, by decide⟩
            · exact ⟨fun h => Option.noConfusion h, fun h => absurd h ha⟩
            · refine ⟨fun h => Option.noConfusion h, fun h => ?_⟩
              exact absurd h.2 hnl
            · refine ⟨fun h => Option.noConfusion h, fun h => ?_⟩
              obtain ⟨b2, bs2, hbs, hb2⟩ := h.2.2
              injection hbs with h1 h2
              exact absurd (h1 ▸ hb2) hb

end BlueFusion

namespace BlueFusion

/-- C8 (counterexample to the claim as stated): for the 4-byte data
`ab ab ab 00`, the analyzer reports the one-byte pattern `ab` with count 3
and frequency `3/7` — the denominator counts length-2 windows of the
8-digit hex string — while the claim's formula
`count / max(1, N − L + 1)` with `N = 4` bytes and `L = 1` byte gives
`3/4`. -/
theorem pattern_frequency_claim_counterexample :
    ∃ p ∈ analyze_patterns 2 8 ab_data,
      p.hex_pattern = [10, 11] ∧ p.count = 3 ∧ p.length = 1
      ∧ p.frequency = 3 / 7
      ∧ p.frequency ≠ (p.count : ℚ) / ((max 1 (4 - p.length + 1) : ℕ) : ℚ) := by
  have e1 : count_occ [10, 11] (hex_digits ab_data) = 3 := by decide
  have e2 : max 1 ((hex_digits ab_data).length + 1 - ([10, 11] : List ℕ).length) = 7 := by
    decide
  refine ⟨ab_pattern_report, ?_, rfl, e1, rfl, ?_, ?_⟩
  · exact List.mem_map.mpr ⟨[10, 11], by decide, rfl⟩
  · show (count_occ [10, 11] (hex_digits ab_data) : ℚ)
      / ((max 1 ((hex_digits ab_data).length + 1 - ([10, 11] : List ℕ).length) : ℕ) : ℚ)
      = 3 / 7
    rw [e1, e2]
    norm_num
  · show (count_occ [10, 11] (hex_digits ab_data) : ℚ)
      / ((max 1 ((hex_digits ab_data).length + 1 - ([10, 11] : List ℕ).length) : ℕ) : ℚ)
      ≠ (count_occ [10, 11] (hex_digits ab_data) : ℚ)
      / ((max 1 (4 - ([10, 11] : List ℕ).length / 2 + 1) : ℕ) : ℚ)
    rw [e1, e2]
    norm_num

/-- C8 (amended): for every reported pattern, the frequency equals
`count / max(1, H − ℓ + 1)` where `H = 2N` is the length of the
hexadecimal representation of the data (`N = len(data)` bytes) and `ℓ` the
pattern's length in hex digits (`2L` for a pattern of `L` bytes), with
`count` the number of occurrences of the pattern in the hex string,
overlapping occurrences included. -/
theorem pattern_frequency_amended_spec (min_len max_len : Nat) (data : List Nat) :
    ∀ p ∈ analyze_patterns min_len max_len data,
      p.count = count_occ p.hex_pattern (hex_digits data)
      ∧ p.frequency = (p.count : ℚ)
          / ((max 1 ((hex_digits data).length + 1 - p.hex_pattern.length) : ℕ) : ℚ)
      ∧ (hex_digits data).length = 2 * data.length := by
  have hlen : ∀ l : List Nat, (hex_digits l).length = 2 * l.length := by
    intro l
    induction l with
    | nil => rfl
    | cons b bs ih =>
        simp only [hex_digits, List.length_cons, ih]
        omega
  intro p hp
  simp only [analyze_patterns, List.mem_map] at hp
  obtain ⟨pat, hmem, rfl⟩ := hp
  exact ⟨rfl, rfl, hlen data⟩

/-- C8 (witness): the amended theorem applied to the `ab` pattern reported
for the data `ab ab ab 00`. -/
theorem pattern_frequency_amended_spec_witness :
    ∃ p ∈ analyze_patterns 2 8 ab_data,
      p.count = count_occ p.hex_pattern (hex_digits ab_data)
      ∧ p.frequency = (p.count : ℚ)
          / ((max 1 ((hex_digits ab_data).length + 1 - p.hex_pattern.length) : ℕ) : ℚ) := by
  refine ⟨ab_pattern_report, ?_, ?_⟩
  · exact List.mem_map.mpr ⟨[10, 11], by decide, rfl⟩
  · have h := pattern_frequency_amended_spec 2 8 ab_data ab_pattern_report
      (List.mem_map.mpr ⟨[10, 11], by decide, rfl⟩)
    exact ⟨h.1, h.2.1⟩

end BlueFusion
